import Mathlib

/-!
# Verification of the CSFloat inventory-valuation core (`src/cogs/csfloat.py`)

Shallow embedding of the valuation subsystem: the Steam inventory fetcher
(`fetch_full_inventory`), the CSFloat pricing client (`CSFloatClient` with its
retry loop `_get` and the two cached lookups `lowest_listing_exact` /
`lowest_listing_broad`), the valuation engine (`sequential_value`) and the CSV
exporter (`write_csv`).

Modelling conventions:
* The network is a deterministic fake transport, a function from the index of
  the request (0-based, in issue order) to the response.  Each client value
  records the chronological list of requests it issued.
* `time.sleep` calls are logged, not executed; durations are in centiseconds
  so that `0.6 * (attempt + 1)` seconds becomes `60 * (attempt + 1)`.
* Python exceptions become `Except PyErr`; an exception aborts the operation
  but the state mutated so far is still reported.
* Prices are unbounded integers (Python ints), never floats; the only
  float in the source, `cents / 100` at rendering time, is modelled by exact
  decimal formatting (for integer cents of realistic size the Python float
  round-trip is exact).
* `str.lower` is modelled per character, which is faithful on ASCII names.
-/

/-- Python whitespace: the characters removed by `str.strip()` and matched by
the regex class `\s`. -/
def pyIsSpace (c : Char) : Bool :=
  c == ' ' || c == '\t' || c == '\n' || c == '\r' || c == '\x0b' || c == '\x0c'

/-- Remove the trailing run of Python whitespace from a character list. -/
def stripTrailingWs (xs : List Char) : List Char :=
  (xs.reverse.dropWhile pyIsSpace).reverse

/-- Python `str.strip()` with no argument: drop leading and trailing
whitespace. -/
def pyStrip (s : String) : String :=
  ⟨(stripTrailingWs s.data).dropWhile pyIsSpace⟩

/-- Python `str.lower`, character by character (faithful on ASCII, the case
exercised by the program). -/
def pyLower (s : String) : String :=
  ⟨s.data.map Char.toLower⟩

/-- Lexicographic comparison of character lists by code point: Python's
`<=` on strings (applied to lowercased keys by the sort in
`sequential_value`). -/
def lexLe : List Char → List Char → Bool
  | [], _ => true
  | _ :: _, [] => false
  | a :: as, b :: bs =>
    if a.toNat < b.toNat then true
    else if b.toNat < a.toNat then false
    else lexLe as bs

/-- The iteration order of `sequential_value`: ascending by the lowercased
name (`sorted(counts.keys(), key=str.lower)`). -/
def pyNameLe (a b : String) : Prop :=
  lexLe (pyLower a).data (pyLower b).data = true

instance : DecidableRel pyNameLe :=
  fun a b => instDecidableEqBool (lexLe (pyLower a).data (pyLower b).data) true

/-! ## The broad-match regex

`lowest_listing_broad` derives its base name with
`re.match(r"^(.*?)(?:\s*\([^)]*\))$", market_hash_name)`.
The pattern is deterministic: the lazy group takes the shortest prefix such
that the rest of the string is optional whitespace, `(`, a run of
non-`)` characters, and a final `)`.  `.` never matches a newline. -/

/-- Matches `[^)]*\)` against exactly the given character list. -/
def innerParenOk : List Char → Bool
  | [] => false
  | [c] => c == ')'
  | c :: rest => c != ')' && innerParenOk rest

/-- Matches `\s*\([^)]*\)` against exactly the given character list. -/
def tailParenMatch : List Char → Bool
  | [] => false
  | c :: rest =>
    if c == '(' then innerParenOk rest
    else pyIsSpace c && tailParenMatch rest

/-- Group 1 of `re.match(r"^(.*?)(?:\s*\([^)]*\))$", s)`, or `none` when the
regex does not match.  The group is extended lazily and its characters are
matched by `.`, which excludes `'\n'`. -/
def lazyGroup : List Char → Option (List Char)
  | [] => none
  | c :: rest =>
    if tailParenMatch (c :: rest) then some []
    else if c == '\n' then none
    else (lazyGroup rest).map (fun g => c :: g)

/-- The regex match of `lowest_listing_broad`: `some group1` on a match,
`none` otherwise. -/
def stripParen (s : String) : Option String :=
  (lazyGroup s.data).map (fun g => (⟨g⟩ : String))

/-- The base name computed by `lowest_listing_broad`:
`m.group(1).strip() if m else market_hash_name.strip()`. -/
def broadBase (name : String) : String :=
  match stripParen name with
  | some g => pyStrip g
  | none => pyStrip name

/-! ## The CSFloat pricing client -/

/-- One listing of the JSON response array, as consumed by the client:
`int(data[0]["price"])` and `str(data[0]["id"])`. -/
structure Listing where
  price : Int
  id : String
deriving Repr, DecidableEq

/-- Outcome of one `sess.get` against the listings endpoint.
`ok d` is an HTTP 200 whose parsed body is `d` (`none` models a JSON body
that is not a list, `some l` a JSON array); `auth c` is a 401/403;
`rateLimited` a 429; `fail msg` any other HTTP error status or a raised
exception (timeout, connection error), with `msg` its `str()`. -/
inductive CFResp where
  | ok (data : Option (List Listing))
  | auth (code : Nat)
  | rateLimited
  | fail (msg : String)
deriving Repr, DecidableEq

/-- The Python exceptions that escape the embedded operations. -/
inductive PyErr where
  | permissionError (msg : String)
  | httpError (code : Nat)
  | runtimeError (msg : String)
deriving Repr, DecidableEq

/-- State of one `CSFloatClient`, plus its fake transport.
`requests` is the chronological list of `market_hash_name` query values of
the listings requests issued so far; `cache` is the per-instance cache
(most recent entry first, lookup takes the first hit); `sleepC` the
politeness delay `self.sleep` and `sleeps` the chronological log of
`time.sleep` durations, both in centiseconds. -/
structure CFClient where
  transport : Nat → CFResp
  requests : List String
  cache : List (String × Option (Int × String × String))
  sleepC : Nat
  sleeps : List Nat

/-- A freshly constructed client: empty cache, no requests issued. -/
def freshClient (t : Nat → CFResp) (sleepC : Nat) : CFClient :=
  ⟨t, [], [], sleepC, []⟩

/-- The message of the `PermissionError` raised on a 401/403 inside `_get`. -/
def authMsg (code : Nat) : String :=
  "CSFloat auth rejected (" ++ toString code ++ "). Check your key."

/-- Python rendering of `last_exc` inside the final f-string (`None` when no
exception was recorded). -/
def showLastExc : Option String → String
  | none => "None"
  | some m => m

/-- `CSFloatClient.BASE`. -/
def CSFLOAT_BASE : String := "https://csfloat.com/api/v1/listings"

/-- The fully encoded request URL returned by `_final_url` for the listing
params `{market_hash_name: name, limit: 1, sort_by: "lowest_price"}`
(percent-encoding of the name is elided; no claim depends on it). -/
def final_url (name : String) : String :=
  CSFLOAT_BASE ++ "?market_hash_name=" ++ name ++ "&limit=1&sort_by=lowest_price"

/-- The body of `CSFloatClient._get`: `for attempt in range(2)` with the
remaining attempt numbers as a list.  Each iteration issues one request.
A 401/403 raises `PermissionError` *inside* the `try`, so the
`except Exception` clause catches it, records it as `last_exc` and sleeps
`0.6 * (attempt + 1)`; a 429 sleeps `1.2 * (attempt + 1)` and continues;
any other failure records `last_exc` and sleeps `0.6 * (attempt + 1)`.
When the attempts are exhausted a `RuntimeError` wrapping `last_exc` is
raised. -/
def getLoop (qname : String) :
    List Nat → Option String → CFClient →
      (Except PyErr (Option (List Listing))) × CFClient
  | [], lastExc, c =>
    (Except.error (PyErr.runtimeError
      ("CSFloat request failed after retries: " ++ showLastExc lastExc)), c)
  | attempt :: rest, lastExc, c =>
    let c1 : CFClient := { c with requests := c.requests ++ [qname] }
    match c.transport c.requests.length with
    | CFResp.ok d => (Except.ok d, c1)
    | CFResp.auth code =>
      getLoop qname rest (some (authMsg code))
        { c1 with sleeps := c1.sleeps ++ [60 * (attempt + 1)] }
    | CFResp.rateLimited =>
      getLoop qname rest lastExc
        { c1 with sleeps := c1.sleeps ++ [120 * (attempt + 1)] }
    | CFResp.fail msg =>
      getLoop qname rest (some msg)
        { c1 with sleeps := c1.sleeps ++ [60 * (attempt + 1)] }

/-- `CSFloatClient._get` for the listing params built from `qname`. -/
def client_get (c : CFClient) (qname : String) :
    (Except PyErr (Option (List Listing))) × CFClient :=
  getLoop qname (List.range 2) none c

/-- `data[0]` guarded by `isinstance(data, list) and data`. -/
def firstListing : Option (List Listing) → Option Listing
  | some (l :: _) => some l
  | _ => none

/-- The cache key of `lowest_listing_exact`:
`("exact|" + market_hash_name).strip()`. -/
def exactKey (name : String) : String :=
  pyStrip ("exact|" ++ name)

/-- The cached value produced from a `_get` body `d` for query name `name`:
`None` for an empty or non-list body, else the first (cheapest) entry. -/
def quoteOf (d : Option (List Listing)) (name : String) :
    Option (Int × String × String) :=
  match firstListing d with
  | none => none
  | some l => some (l.price, l.id, final_url name)

/-- `CSFloatClient.lowest_listing_exact`. -/
def lowest_listing_exact (c : CFClient) (name : String) :
    (Except PyErr (Option (Int × String × String))) × CFClient :=
  match c.cache.lookup (exactKey name) with
  | some v => (Except.ok v, c)
  | none =>
    match client_get c name with
    | (Except.error e, c1) => (Except.error e, c1)
    | (Except.ok d, c1) =>
      let c2 : CFClient := { c1 with sleeps := c1.sleeps ++ [c1.sleepC] }
      (Except.ok (quoteOf d name),
       { c2 with cache := (exactKey name, quoteOf d name) :: c2.cache })

/-- `CSFloatClient.lowest_listing_broad`.  The cache is consulted before the
duplicate-suppression test `base == market_hash_name`. -/
def lowest_listing_broad (c : CFClient) (name : String) :
    (Except PyErr (Option (Int × String × String))) × CFClient :=
  match c.cache.lookup ("broad|" ++ broadBase name) with
  | some v => (Except.ok v, c)
  | none =>
    if broadBase name = name then
      (Except.ok none, { c with cache := ("broad|" ++ broadBase name, none) :: c.cache })
    else
      match client_get c (broadBase name) with
      | (Except.error e, c1) => (Except.error e, c1)
      | (Except.ok d, c1) =>
        let c2 : CFClient := { c1 with sleeps := c1.sleeps ++ [c1.sleepC] }
        (Except.ok (quoteOf d (broadBase name)),
         { c2 with cache := ("broad|" ++ broadBase name, quoteOf d (broadBase name)) :: c2.cache })

/-! ## The valuation engine -/

/-- One element of the `rows` list built by `sequential_value`. -/
structure ValRow where
  name : String
  qty : Nat
  unit_cents : Option Int
  subtotal_cents : Int
  priced : Bool
  mode : String
  listing_id : String
  url : String
deriving Repr, DecidableEq

/-- `counts[name]` (the key is always present in the source; absent keys
default to 0 in the model). -/
def lookupQty (counts : List (String × Nat)) (name : String) : Nat :=
  (counts.lookup name).getD 0

/-- The row dictionary appended for one name, given the winning quote (or
`None`) and the recorded mode label. -/
def mkRow (name : String) (qty : Nat) (used : Option (Int × String × String))
    (mode : String) : ValRow :=
  match used with
  | none => ⟨name, qty, none, 0, false, mode, "", ""⟩
  | some (u, lid, url) => ⟨name, qty, some u, u * (qty : Int), true, mode, lid, url⟩

/-- The per-name pricing of `sequential_value`: `lowest_listing_exact`, then
`lowest_listing_broad` only when the exact lookup yielded `None`; the mode
label is `"broad"` exactly when the broad lookup produced the quote, and
`"exact"` otherwise (also when neither succeeded). -/
def priceName (c : CFClient) (name : String) :
    (Except PyErr (Option (Int × String × String) × String)) × CFClient :=
  match lowest_listing_exact c name with
  | (Except.error e, c1) => (Except.error e, c1)
  | (Except.ok (some q), c1) => (Except.ok (some q, "exact"), c1)
  | (Except.ok none, c1) =>
    match lowest_listing_broad c1 name with
    | (Except.error e, c2) => (Except.error e, c2)
    | (Except.ok (some q), c2) => (Except.ok (some q, "broad"), c2)
    | (Except.ok none, c2) => (Except.ok (none, "exact"), c2)

/-- The pricing loop of `sequential_value` over the sorted name list.  The
running total accumulates exactly the priced subtotals (unpriced rows
contribute `0`); an exception aborts the loop and propagates. -/
def valLoop (counts : List (String × Nat)) :
    List String → CFClient → (Except PyErr (Int × List ValRow)) × CFClient
  | [], c => (Except.ok (0, []), c)
  | name :: rest, c =>
    match priceName c name with
    | (Except.error e, c1) => (Except.error e, c1)
    | (Except.ok (used, mode), c1) =>
      match valLoop counts rest c1 with
      | (Except.error e, c2) => (Except.error e, c2)
      | (Except.ok (total, rows), c2) =>
        (Except.ok ((mkRow name (lookupQty counts name) used mode).subtotal_cents + total,
                    mkRow name (lookupQty counts name) used mode :: rows), c2)

/-- `sequential_value(counts, cf)`: early return on an empty mapping, else
iterate the keys ascending by lowercased name (`sorted(..., key=str.lower)`,
a stable sort) and return the grand total together with the rows. -/
def sequential_value (counts : List (String × Nat)) (c : CFClient) :
    (Except PyErr (Int × List ValRow)) × CFClient :=
  if counts.isEmpty then (Except.ok (0, []), c)
  else valLoop counts (List.insertionSort pyNameLe (counts.map Prod.fst)) c

/-! ## The CSV exporter -/

/-- Exact rendering of `f"{cents/100:.2f}"` for integer cents. -/
def fmt_usd (cents : Int) : String :=
  let n := cents.natAbs
  let base := toString (n / 100) ++ "." ++ (if n % 100 < 10 then "0" else "") ++ toString (n % 100)
  if cents < 0 then "-" ++ base else base

/-- `csv.writer` quoting test (QUOTE_MINIMAL): a field is quoted when it
contains the delimiter, the quote character or a line-terminator
character. -/
def csvNeedsQuote (s : String) : Bool :=
  s.data.any (fun ch => ch == ',' || ch == '"' || ch == '\r' || ch == '\n')

/-- Double every quote character of a quoted field body. -/
def csvEscaped (s : String) : String :=
  ⟨(s.data.map (fun ch => if ch == '"' then ['"', '"'] else [ch])).flatten⟩

/-- One field as written by `csv.writer` with QUOTE_MINIMAL. -/
def csvField (s : String) : String :=
  if csvNeedsQuote s then "\"" ++ csvEscaped s ++ "\"" else s

/-- One line written by `csv.writer.writerow`. -/
def csvLine (fields : List String) : String :=
  String.intercalate "," (fields.map csvField)

/-- The field list of one data row of `write_csv`. -/
def csvRowFields (r : ValRow) : List String :=
  [r.name, toString r.qty, fmt_usd (r.unit_cents.getD 0), fmt_usd r.subtotal_cents,
   if r.priced then "yes" else "no", r.mode, r.listing_id]

/-- `write_csv(rows, grand_cents, path)` as the list of lines it writes:
header, one line per row, and the trailing TOTAL line
`["TOTAL", "", "", f"{grand_cents/100:.2f}", "", "", ""]`. -/
def write_csv_lines (rows : List ValRow) (grand_cents : Int) : List String :=
  csvLine ["name", "qty", "unit_usd", "subtotal_usd", "priced", "mode", "listing_id"]
    :: rows.map (fun r => csvLine (csvRowFields r))
    ++ [csvLine ["TOTAL", "", "", fmt_usd grand_cents, "", "", ""]]

/-! ## The Steam inventory fetcher -/

/-- One entry of the `assets` array (`classid`, `instanceid`). -/
structure RawAsset where
  classid : String
  instanceid : String
deriving Repr, DecidableEq

/-- One entry of the `descriptions` array.  The name fields are optional
strings (`None` models an absent key); `marketable` defaults to 0. -/
structure SteamDesc where
  classid : String
  instanceid : String
  market_hash_name : Option String
  market_name : Option String
  marketable : Int
deriving Repr, DecidableEq

/-- The record kept per priced item: display name and marketable flag. -/
structure InvAsset where
  name : String
  marketable : Int
deriving Repr, DecidableEq

/-- Outcome of one inventory page request: a parsed page, a 403, or any
other error status (`raise_for_status`). -/
inductive InvResp where
  | page (assets : List RawAsset) (descriptions : List SteamDesc)
      (more_items : Option Int) (last_assetid : Option String)
  | forbidden
  | httpFail (code : Nat)

/-- The composite key `f"{classid}_{instanceid}"`. -/
def descKey (cid iid : String) : String := cid ++ "_" ++ iid

/-- Python string truthiness: `some s` when the value is a non-empty string,
else `none` (models `x or ...` fallthrough and `... or None`). -/
def truthy : Option String → Option String
  | some s => if s = "" then none else some s
  | none => none

/-- The display name of one description:
`(d.get("market_hash_name") or d.get("market_name") or "").strip()`. -/
def descName (d : SteamDesc) : String :=
  pyStrip (((truthy d.market_hash_name).orElse (fun _ => truthy d.market_name)).getD "")

/-- The per-page body of `fetch_full_inventory`: correlate each asset with
its description through the composite key (the dict comprehension keeps the
last description for a duplicated key), drop entries without a resolvable
description or with an empty display name. -/
def processPage (assets : List RawAsset) (descs : List SteamDesc) : List InvAsset :=
  assets.filterMap (fun a =>
    match descs.reverse.find? (fun d =>
        descKey d.classid d.instanceid == descKey a.classid a.instanceid) with
    | some d =>
      let n := descName d
      if n = "" then none else some ⟨n, d.marketable⟩
    | none => none)

/-- The pagination loop of `fetch_full_inventory`.  The transport maps the
request index to a response; the cursor sent with each request is logged
(`none` for the first request).  `fuel` bounds the number of iterations of
the source's `while True` (every theorem supplies enough fuel, so the
artificial out-of-fuel error is never reached there).  The loop ends when
`more_items != 1`, or when `last_assetid or None` is falsy. -/
def fetchLoop (t : Nat → InvResp) :
    Nat → Option String → List InvAsset → List (Option String) →
      Except PyErr (List InvAsset × List (Option String))
  | 0, _, _, _ => Except.error (PyErr.runtimeError "model: page fuel exhausted")
  | fuel + 1, start, acc, reqs =>
    let reqs1 := reqs ++ [start]
    match t reqs.length with
    | InvResp.forbidden =>
      Except.error (PyErr.permissionError "Inventory is private or not accessible.")
    | InvResp.httpFail code => Except.error (PyErr.httpError code)
    | InvResp.page assets descs more last =>
      let acc1 := acc ++ processPage assets descs
      if more = some 1 then
        match truthy last with
        | none => Except.ok (acc1, reqs1)
        | some s => fetchLoop t fuel (some s) acc1 reqs1
      else Except.ok (acc1, reqs1)

/-- `fetch_full_inventory`, returning the collected assets and the log of
cursors sent (one entry per page request). -/
def fetch_full_inventory (t : Nat → InvResp) (fuel : Nat) :
    Except PyErr (List InvAsset × List (Option String)) :=
  fetchLoop t fuel none [] []

/-! ## Concrete scenario data used by the individual claims -/

/-- C1: a transport whose every answer is HTTP 403. -/
def c1t : Nat → CFResp := fun _ => CFResp.auth 403

/-- C2 counterexample transport: rate limited once, then a generic failure,
then success. -/
def c2ct : Nat → CFResp :=
  fun n => if n = 0 then CFResp.rateLimited
           else if n = 1 then CFResp.fail "boom"
           else CFResp.ok (some [])

/-- C2 witness transport: rate limited once, then success. -/
def c2wt : Nat → CFResp :=
  fun n => if n = 0 then CFResp.rateLimited else CFResp.ok (some [])

/-- C3: the single row of the CSV scenario fixed by the claim. -/
def c3row : ValRow :=
  ⟨"AK-47 | Redline", 2, some 1500, 3000, true, "exact", "42", ""⟩

/-- C4 witness transport: every lookup finds one listing at 100 cents. -/
def c4t : Nat → CFResp := fun _ => CFResp.ok (some [⟨100, "1"⟩])

/-- C4 witness counts. -/
def c4counts : List (String × Nat) := [("A", 2)]

/-- C4 witness row: the single row the run produces. -/
def c4row : ValRow :=
  ⟨"A", 2, some 100, 200, true, "exact", "1", final_url "A"⟩

/-- C5 counterexample transport: one listing at 100 cents. -/
def c5t : Nat → CFResp := fun _ => CFResp.ok (some [⟨100, "1"⟩])

/-- C6 witness transport: an empty listings array (the NoQuote outcome). -/
def c6wt : Nat → CFResp := fun _ => CFResp.ok (some [])

/-- C7: a transport that never finds a listing. -/
def c7t : Nat → CFResp := fun _ => CFResp.ok (some [])

/-- C7: two count mappings with the same contents in different insertion
order; the two keys are equal up to case. -/
def c7countsA : List (String × Nat) := [("B", 1), ("b", 2)]

/-- C7: the other insertion order of the same contents. -/
def c7countsB : List (String × Nat) := [("b", 2), ("B", 1)]

/-- The row names of a valuation outcome (empty on an exception). -/
def okRowNames (p : (Except PyErr (Int × List ValRow)) × CFClient) : List String :=
  match p.1 with
  | Except.ok (_, rows) => rows.map ValRow.name
  | Except.error _ => []

/-- C8 witness transport: two pages; page 2 reports no further items. -/
def c8t : Nat → InvResp :=
  fun n =>
    if n = 0 then
      InvResp.page [⟨"c1", "i1"⟩] [⟨"c1", "i1", some "AK-47 | Redline", none, 1⟩]
        (some 1) (some "7001")
    else
      InvResp.page [⟨"c2", "i2"⟩] [⟨"c2", "i2", none, some "M4A4 | Howl", 0⟩]
        none none

/-- C10 counterexample transport: the first request finds a 100-cent listing,
the second a 200-cent listing. -/
def c10t : Nat → CFResp :=
  fun n => if n = 0 then CFResp.ok (some [⟨100, "1"⟩]) else CFResp.ok (some [⟨200, "2"⟩])

/-- C10 witness transport: an empty listings array. -/
def c10wt : Nat → CFResp := fun _ => CFResp.ok (some [])

/-- The per-row invariant of claim C4: a priced row's subtotal is its unit
price times its quantity, an unpriced row's subtotal is zero. -/
def RowOk (r : ValRow) : Prop :=
  (r.priced = true → ∃ u, r.unit_cents = some u ∧ r.subtotal_cents = u * (r.qty : Int)) ∧
  (r.priced = false → r.subtotal_cents = 0)

/-! ## Helper lemmas -/

theorem list_range_two : List.range 2 = [0, 1] := by decide

/-- A cached key makes `lowest_listing_exact` return immediately with the
cached value and an unchanged client. -/
theorem exact_cache_hit (c : CFClient) (name : String)
    (v : Option (Int × String × String))
    (h : c.cache.lookup (exactKey name) = some v) :
    lowest_listing_exact c name = (Except.ok v, c) := by
  unfold lowest_listing_exact
  rw [h]

/-- When the transport answers the next request with success, `_get` returns
its body after exactly one request and no backoff sleep. -/
theorem client_get_first_ok (c : CFClient) (qname : String)
    (d : Option (List Listing))
    (h : c.transport c.requests.length = CFResp.ok d) :
    client_get c qname = (Except.ok d, { c with requests := c.requests ++ [qname] }) := by
  unfold client_get
  rw [list_range_two]
  unfold getLoop
  rw [h]

/-- A cache miss followed by a first-attempt transport success: the exact
lookup issues one request, sleeps the politeness delay once, and caches the
outcome (a quote, or `none` for an empty or non-list body). -/
theorem exact_miss_first_ok (c : CFClient) (name : String)
    (d : Option (List Listing))
    (hmiss : c.cache.lookup (exactKey name) = none)
    (hok : c.transport c.requests.length = CFResp.ok d) :
    lowest_listing_exact c name =
      (Except.ok (quoteOf d name),
       { c with requests := c.requests ++ [name],
                sleeps := c.sleeps ++ [c.sleepC],
                cache := (exactKey name, quoteOf d name) :: c.cache }) := by
  unfold lowest_listing_exact
  rw [hmiss, client_get_first_ok c name d hok]

theorem dropWhile_append_allp {p : Char → Bool} (l1 l2 : List Char)
    (h : ∀ x ∈ l1, p x = true) :
    List.dropWhile p (l1 ++ l2) = List.dropWhile p l2 := by
  induction l1 with
  | nil => rfl
  | cons a as ih =>
    rw [List.cons_append, List.dropWhile_cons, if_pos (h a (List.mem_cons_self a as))]
    exact ih (fun x hx => h x (List.mem_cons_of_mem a hx))

theorem stripTrailingWs_append (xs w : List Char)
    (h : ∀ x ∈ w, pyIsSpace x = true) :
    stripTrailingWs (xs ++ w) = stripTrailingWs xs := by
  unfold stripTrailingWs
  rw [List.reverse_append,
      dropWhile_append_allp w.reverse xs.reverse
        (fun x hx => h x (List.mem_reverse.mp hx))]

/-- Appending whitespace to a string does not change its `strip()`. -/
theorem pyStrip_append_ws (s w : String)
    (h : ∀ ch ∈ w.data, pyIsSpace ch = true) :
    pyStrip (s ++ w) = pyStrip s := by
  unfold pyStrip
  have hd : (s ++ w).data = s.data ++ w.data := rfl
  rw [hd, stripTrailingWs_append s.data w.data h]

/-- The cache key of `lowest_listing_exact` erases trailing whitespace of the
name: `name` and `name ++ w` share a key when `w` is whitespace. -/
theorem exactKey_append_ws (name w : String)
    (h : ∀ ch ∈ w.data, pyIsSpace ch = true) :
    exactKey (name ++ w) = exactKey name := by
  unfold exactKey
  have hassoc : "exact|" ++ (name ++ w) = ("exact|" ++ name) ++ w :=
    congrArg String.mk (List.append_assoc _ _ _).symm
  rw [hassoc, pyStrip_append_ws ("exact|" ++ name) w h]

theorem truthy_some_of_ne (s : String) (h : s ≠ "") : truthy (some s) = some s := by
  rw [show truthy (some s) = if s = "" then none else some s from rfl, if_neg h]

theorem lexLe_total (x y : List Char) : lexLe x y = true ∨ lexLe y x = true := by
  induction x generalizing y with
  | nil => left; rfl
  | cons a as ih =>
    cases y with
    | nil => right; rfl
    | cons b bs =>
      by_cases hab : a.toNat < b.toNat
      · left; simp [lexLe, hab]
      · by_cases hba : b.toNat < a.toNat
        · right; simp [lexLe, hba]
        · rcases ih bs with h | h
          · left; simp [lexLe, hab, hba, h]
          · right; simp [lexLe, hab, hba, h]

theorem lexLe_trans (x y z : List Char) (h1 : lexLe x y = true)
    (h2 : lexLe y z = true) : lexLe x z = true := by
  induction x generalizing y z with
  | nil => rfl
  | cons a as ih =>
    cases y with
    | nil => simp [lexLe] at h1
    | cons b bs =>
      cases z with
      | nil => simp [lexLe] at h2
      | cons c cs =>
        simp only [lexLe] at h1 h2 ⊢
        split_ifs at h1 h2 ⊢ with hab hba hbc hcb hac hca <;>
          first
            | rfl
            | omega
            | (exact ih bs cs h1 h2)

instance : IsTotal String pyNameLe :=
  ⟨fun a b => lexLe_total (pyLower a).data (pyLower b).data⟩

instance : IsTrans String pyNameLe :=
  ⟨fun _ _ _ h1 h2 => lexLe_trans _ _ _ h1 h2⟩

/-- The name recorded in a row is the loop's name (whatever the quote). -/
theorem mkRow_name (name : String) (qty : Nat)
    (used : Option (Int × String × String)) (mode : String) :
    (mkRow name qty used mode).name = name := by
  cases used with
  | none => rfl
  | some q => obtain ⟨u, lid, url⟩ := q; rfl

/-- Every row built by the loop satisfies the subtotal invariant. -/
theorem mkRow_ok (name : String) (qty : Nat)
    (used : Option (Int × String × String)) (mode : String) :
    RowOk (mkRow name qty used mode) := by
  cases used with
  | none => exact ⟨fun h => by simp [mkRow] at h, fun _ => rfl⟩
  | some q =>
    obtain ⟨u, lid, url⟩ := q
    exact ⟨fun _ => ⟨u, rfl, rfl⟩, fun h => by simp [mkRow] at h⟩

/-- Loop invariant for C4: an `ok` outcome of the pricing loop has a total
equal to the sum of the row subtotals, and every row satisfies `RowOk`. -/
theorem valLoop_ok (counts : List (String × Nat)) :
    ∀ (names : List String) (c : CFClient) (total : Int) (rows : List ValRow)
      (c2 : CFClient),
      valLoop counts names c = (Except.ok (total, rows), c2) →
      total = (rows.map ValRow.subtotal_cents).sum ∧ ∀ r ∈ rows, RowOk r := by
  intro names
  induction names with
  | nil =>
    intro c total rows c2 h
    unfold valLoop at h
    simp only [Prod.mk.injEq, Except.ok.injEq] at h
    obtain ⟨⟨h1, h2⟩, -⟩ := h
    subst h1
    subst h2
    exact ⟨rfl, by intro r hr; cases hr⟩
  | cons name rest ih =>
    intro c total rows c2 h
    unfold valLoop at h
    rcases hp : priceName c name with ⟨res, c1⟩
    rw [hp] at h
    cases res with
    | error e => simp at h
    | ok pr =>
      obtain ⟨used, mode⟩ := pr
      dsimp only at h
      rcases hv : valLoop counts rest c1 with ⟨res2, c3⟩
      rw [hv] at h
      cases res2 with
      | error e => simp at h
      | ok p =>
        obtain ⟨t2, rows2⟩ := p
        dsimp only at h
        simp only [Prod.mk.injEq, Except.ok.injEq] at h
        obtain ⟨⟨h1, h2⟩, -⟩ := h
        obtain ⟨hsum, hrows⟩ := ih c1 t2 rows2 c3 hv
        subst h1
        subst h2
        constructor
        · simp [hsum]
        · intro r hr
          rcases List.mem_cons.mp hr with hr | hr
          · subst hr; exact mkRow_ok name (lookupQty counts name) used mode
          · exact hrows r hr

/-- Loop invariant for C7: an `ok` outcome prices the given names in the
given order, one row per name. -/
theorem valLoop_names (counts : List (String × Nat)) :
    ∀ (names : List String) (c : CFClient) (total : Int) (rows : List ValRow)
      (c2 : CFClient),
      valLoop counts names c = (Except.ok (total, rows), c2) →
      rows.map ValRow.name = names := by
  intro names
  induction names with
  | nil =>
    intro c total rows c2 h
    unfold valLoop at h
    simp only [Prod.mk.injEq, Except.ok.injEq] at h
    obtain ⟨⟨-, h2⟩, -⟩ := h
    subst h2
    rfl
  | cons name rest ih =>
    intro c total rows c2 h
    unfold valLoop at h
    rcases hp : priceName c name with ⟨res, c1⟩
    rw [hp] at h
    cases res with
    | error e => simp at h
    | ok pr =>
      obtain ⟨used, mode⟩ := pr
      dsimp only at h
      rcases hv : valLoop counts rest c1 with ⟨res2, c3⟩
      rw [hv] at h
      cases res2 with
      | error e => simp at h
      | ok p =>
        obtain ⟨t2, rows2⟩ := p
        dsimp only at h
        simp only [Prod.mk.injEq, Except.ok.injEq] at h
        obtain ⟨⟨-, h2⟩, -⟩ := h
        subst h2
        rw [List.map_cons, mkRow_name, ih c1 t2 rows2 c3 hv]

/-- Claim C9: valuing the empty count mapping returns a zero total and no
rows, and leaves the client untouched: no lookup, no request, no cache
write. -/
theorem c9_empty_counts_no_lookups (c : CFClient) :
    sequential_value [] c = (Except.ok (0, []), c) := rfl

/-! ## Claims -/

/-- Claim C1 (the code contradicts it): the `raise PermissionError` for a
401/403 sits inside the `try` block whose `except Exception` clause catches
every exception, so an authorization rejection is *not* raised to the
caller: it is recorded as `last_exc`, slept on, retried once (a second
network request with the same credentials), and finally wrapped in the
generic `RuntimeError`.  Evaluating the embedded `_get` on a transport that
answers 403 to everything: two requests are issued, the generic backoff
delays 0.6 s and 1.2 s are slept, and the result is the retries-exhausted
`RuntimeError`, not an access error. -/
theorem c1_auth_rejected_retried_and_wrapped :
    client_get (freshClient c1t 50) "AK-47 | Redline" =
      (Except.error (PyErr.runtimeError
         "CSFloat request failed after retries: CSFloat auth rejected (403). Check your key."),
       { transport := c1t, requests := ["AK-47 | Redline", "AK-47 | Redline"],
         cache := [], sleepC := 50, sleeps := [60, 120] }) := rfl

/-- Claim C2, counterexample: a rate-limited response consumes one of the
two attempts of the shared `range(2)` budget.  On the transport
[rate-limited, generic failure, success] the generic failure gets no retry:
the call raises after two requests, although a third request would have
succeeded.  Under the claim (429 retries do not consume the 2-attempt
generic budget) this run would have completed. -/
theorem c2_rate_limit_consumes_generic_budget :
    client_get (freshClient c2ct 50) "AK" =
      (Except.error (PyErr.runtimeError "CSFloat request failed after retries: boom"),
       { transport := c2ct, requests := ["AK", "AK"], cache := [], sleepC := 50,
         sleeps := [120, 120] }) := rfl

/-- Claim C2 (amended): a "too many requests" response sleeps on its own
linear delay curve `1.2 * (attempt + 1)` seconds (120 centiseconds at
attempt 0), distinct from the generic-failure curve `0.6 * (attempt + 1)`,
and a transport that is rate-limited once and then succeeds completes the
request without raising, after exactly one retry (two requests in total) —
but each rate-limited response does consume one attempt of the same
2-attempt budget. -/
theorem c2_rate_limited_once_then_success (t : Nat → CFResp) (sc : Nat)
    (q : String) (d : Option (List Listing))
    (h0 : t 0 = CFResp.rateLimited) (h1 : t 1 = CFResp.ok d) :
    client_get (freshClient t sc) q =
      (Except.ok d,
       { transport := t, requests := [q, q], cache := [], sleepC := sc,
         sleeps := [120] }) := by
  unfold client_get
  rw [list_range_two]
  unfold getLoop
  rw [show (freshClient t sc).transport (freshClient t sc).requests.length = t 0 from rfl, h0]
  unfold getLoop
  dsimp only [freshClient]
  rw [show t (List.length ([] ++ [q])) = t 1 from rfl, h1]
  simp

theorem c2_rate_limited_once_then_success_witness :
    c2wt 0 = CFResp.rateLimited ∧ c2wt 1 = CFResp.ok (some []) ∧
    client_get (freshClient c2wt 50) "AK" =
      (Except.ok (some []),
       { transport := c2wt, requests := ["AK", "AK"], cache := [], sleepC := 50,
         sleeps := [120] }) :=
  ⟨rfl, rfl, c2_rate_limited_once_then_success c2wt 50 "AK" (some []) rfl rfl⟩

/-- Claim C3, counterexample: the trailing row written by `write_csv` is
`["TOTAL", "", "", total, "", "", ""]` — seven fields, hence six commas:
`TOTAL,,,30.00,,,`.  The claimed literal line `TOTAL,,,30.00,,` has only
six fields and is not the line the code writes. -/
theorem c3_total_line_has_seven_columns :
    (write_csv_lines [c3row] 3000).getD 2 "" = "TOTAL,,,30.00,,," ∧
    ("TOTAL,,,30.00,,," : String) ≠ "TOTAL,,,30.00,," :=
  ⟨rfl, by decide⟩

/-- Claim C3 (amended): exporting the single claimed row with total 3000
produces, after the header, exactly the data line
`AK-47 | Redline,2,15.00,30.00,yes,exact,42` followed by the total line
`TOTAL,,,30.00,,,` (TOTAL in the name column, the grand total as cents/100
with two decimals in the subtotal column, and all five other columns
empty — one trailing comma more than the claimed literal). -/
theorem c3_csv_lines :
    write_csv_lines [c3row] 3000 =
      ["name,qty,unit_usd,subtotal_usd,priced,mode,listing_id",
       "AK-47 | Redline,2,15.00,30.00,yes,exact,42",
       "TOTAL,,,30.00,,,"] := rfl

/-- Claim C4: whenever the valuation returns (rather than raising), each
row's subtotal is `unit_cents * qty` when priced and `0` when not, and the
returned total is the sum of the row subtotals. -/
theorem c4_subtotal_total_invariant (counts : List (String × Nat)) (c : CFClient)
    (total : Int) (rows : List ValRow)
    (h : (sequential_value counts c).1 = Except.ok (total, rows)) :
    total = (rows.map ValRow.subtotal_cents).sum ∧ ∀ r ∈ rows, RowOk r := by
  rcases hsv : sequential_value counts c with ⟨res, c2⟩
  rw [hsv] at h
  dsimp only at h
  subst h
  unfold sequential_value at hsv
  by_cases hc : counts.isEmpty
  · rw [if_pos hc] at hsv
    simp only [Prod.mk.injEq, Except.ok.injEq] at hsv
    obtain ⟨⟨h1, h2⟩, -⟩ := hsv
    subst h1
    subst h2
    exact ⟨rfl, by intro r hr; cases hr⟩
  · rw [if_neg hc] at hsv
    exact valLoop_ok counts _ c total rows c2 hsv

theorem c4_subtotal_total_invariant_witness :
    (sequential_value c4counts (freshClient c4t 50)).1 = Except.ok (200, [c4row]) ∧
    ((200 : Int) = ([c4row].map ValRow.subtotal_cents).sum ∧ ∀ r ∈ [c4row], RowOk r) :=
  ⟨rfl, c4_subtotal_total_invariant c4counts (freshClient c4t 50) 200 [c4row] rfl⟩

/-- Claim C5, counterexample: for a name carrying surrounding whitespace
the regex does not match, but the derived base is the *stripped* name,
which differs from the input; the duplicate-suppression test fails and a
network request for the stripped base is issued, here returning a quote
rather than NoQuote. -/
theorem c5_unstripped_name_issues_request :
    stripParen " AK " = none ∧
    (lowest_listing_broad (freshClient c5t 50) " AK ").1 =
      Except.ok (some (100, "1", final_url "AK")) ∧
    (lowest_listing_broad (freshClient c5t 50) " AK ").2.requests = ["AK"] :=
  ⟨by decide, rfl, rfl⟩

/-- Claim C5 (amended): for every name with no trailing parenthesized
qualifier group *and no surrounding whitespace* (its stripped form equals
itself), and whose broad key is not already cached, `lowest_listing_broad`
returns NoQuote, issues zero network requests, and only records the
NoQuote cache entry. -/
theorem c5_broad_short_circuit (c : CFClient) (name : String)
    (hnp : stripParen name = none)
    (hst : pyStrip name = name)
    (hmiss : c.cache.lookup ("broad|" ++ name) = none) :
    lowest_listing_broad c name =
      (Except.ok none, { c with cache := ("broad|" ++ name, none) :: c.cache }) := by
  have hb : broadBase name = name := by
    unfold broadBase
    rw [hnp]
    exact hst
  unfold lowest_listing_broad
  rw [hb, hmiss]
  simp

theorem c5_broad_short_circuit_witness :
    stripParen "AK" = none ∧ pyStrip "AK" = "AK" ∧
    (freshClient c5t 50).cache.lookup ("broad|" ++ "AK") = none ∧
    lowest_listing_broad (freshClient c5t 50) "AK" =
      (Except.ok none,
       { freshClient c5t 50 with
           cache := ("broad|" ++ "AK", none) :: (freshClient c5t 50).cache }) :=
  ⟨by decide, by decide, rfl,
   c5_broad_short_circuit (freshClient c5t 50) "AK" (by decide) (by decide) rfl⟩

/-- Claim C6: starting from a client whose cache does not hold the name's
exact key, with a transport that answers the next request successfully, a
second `lowest_listing_exact` call with the same name returns exactly the
first call's result and state — a cache hit with no further network
request — and the two calls together issued exactly one request.  The
body `d` is arbitrary, so this covers the NoQuote outcome (empty or
non-list body) as well as a cached quote. -/
theorem c6_exact_cache_idempotent (c : CFClient) (name : String)
    (d : Option (List Listing))
    (hmiss : c.cache.lookup (exactKey name) = none)
    (hok : c.transport c.requests.length = CFResp.ok d) :
    lowest_listing_exact (lowest_listing_exact c name).2 name =
        lowest_listing_exact c name ∧
    (lowest_listing_exact c name).2.requests.length = c.requests.length + 1 := by
  rw [exact_miss_first_ok c name d hmiss hok]
  constructor
  · apply exact_cache_hit
    simp [List.lookup]
  · simp

theorem c6_exact_cache_idempotent_witness :
    (freshClient c6wt 50).cache.lookup (exactKey "AK") = none ∧
    (freshClient c6wt 50).transport (freshClient c6wt 50).requests.length =
      CFResp.ok (some []) ∧
    (lowest_listing_exact (lowest_listing_exact (freshClient c6wt 50) "AK").2 "AK" =
        lowest_listing_exact (freshClient c6wt 50) "AK" ∧
      (lowest_listing_exact (freshClient c6wt 50) "AK").2.requests.length =
        (freshClient c6wt 50).requests.length + 1) :=
  ⟨rfl, rfl, c6_exact_cache_idempotent (freshClient c6wt 50) "AK" (some []) rfl rfl⟩

/-- Claim C7, counterexample: the sort is *stable* on the lowercased key,
so two mappings with the same contents in different insertion order emit
rows in different orders when two names are case-insensitively equal.  The
row sequence is therefore not a function of the mapping's unordered
contents. -/
theorem c7_tie_order_depends_on_insertion :
    List.Perm c7countsA c7countsB ∧
    okRowNames (sequential_value c7countsA (freshClient c7t 50)) = ["B", "b"] ∧
    okRowNames (sequential_value c7countsB (freshClient c7t 50)) = ["b", "B"] ∧
    (["B", "b"] : List String) ≠ ["b", "B"] :=
  ⟨List.Perm.swap ("b", 2) ("B", 1) [], rfl, rfl, by decide⟩

/-- Claim C7 (amended): whenever the valuation returns, its rows are the
mapping's names sorted ascending by the lowercased name — one row per key,
in an order that is `pyNameLe`-sorted and a permutation of the keys.  The
sort is stable, so for names equal up to case the relative order follows
the mapping's insertion order: the row sequence is a deterministic function
of the mapping's ordered key sequence, not of its unordered contents. -/
theorem c7_rows_sorted_case_insensitive (counts : List (String × Nat)) (c : CFClient)
    (total : Int) (rows : List ValRow)
    (h : (sequential_value counts c).1 = Except.ok (total, rows)) :
    List.Sorted pyNameLe (rows.map ValRow.name) ∧
    List.Perm (rows.map ValRow.name) (counts.map Prod.fst) := by
  rcases hsv : sequential_value counts c with ⟨res, c2⟩
  rw [hsv] at h
  dsimp only at h
  subst h
  unfold sequential_value at hsv
  by_cases hc : counts.isEmpty
  · rw [if_pos hc] at hsv
    simp only [Prod.mk.injEq, Except.ok.injEq] at hsv
    obtain ⟨⟨-, h2⟩, -⟩ := hsv
    subst h2
    have hnil : counts = [] := List.isEmpty_iff.mp hc
    subst hnil
    exact ⟨List.sorted_nil, List.Perm.refl _⟩
  · rw [if_neg hc] at hsv
    rw [valLoop_names counts _ c total rows c2 hsv]
    exact ⟨List.sorted_insertionSort pyNameLe _, List.perm_insertionSort pyNameLe _⟩

theorem c7_rows_sorted_case_insensitive_witness :
    (sequential_value [("b", 1), ("A", 2)] (freshClient c7t 50)).1 =
      Except.ok (0, [⟨"A", 2, none, 0, false, "exact", "", ""⟩,
                     ⟨"b", 1, none, 0, false, "exact", "", ""⟩]) ∧
    (List.Sorted pyNameLe
        ([(⟨"A", 2, none, 0, false, "exact", "", ""⟩ : ValRow),
          ⟨"b", 1, none, 0, false, "exact", "", ""⟩].map ValRow.name) ∧
      List.Perm
        ([(⟨"A", 2, none, 0, false, "exact", "", ""⟩ : ValRow),
          ⟨"b", 1, none, 0, false, "exact", "", ""⟩].map ValRow.name)
        ([("b", 1), ("A", 2)].map Prod.fst)) :=
  ⟨rfl,
   c7_rows_sorted_case_insensitive [("b", 1), ("A", 2)] (freshClient c7t 50) 0
     [⟨"A", 2, none, 0, false, "exact", "", ""⟩,
      ⟨"b", 1, none, 0, false, "exact", "", ""⟩] rfl⟩

/-- Claim C8: a two-page feed — page 1 reports more items with a usable
cursor, page 2 either reports no further items or supplies no usable
cursor — makes the fetch return exactly the processed assets of page 1
followed by those of page 2, after exactly two requests (the first without
a cursor, the second with page 1's cursor), for every sufficient fuel
bound. -/
theorem c8_two_page_termination (t : Nat → InvResp) (fuel : Nat)
    (a0 : List RawAsset) (d0 : List SteamDesc) (cur : String)
    (a1 : List RawAsset) (d1 : List SteamDesc) (m1 : Option Int) (l1 : Option String)
    (h0 : t 0 = InvResp.page a0 d0 (some 1) (some cur))
    (hcur : cur ≠ "")
    (h1 : t 1 = InvResp.page a1 d1 m1 l1)
    (hterm : m1 ≠ some 1 ∨ l1 = none ∨ l1 = some "") :
    fetch_full_inventory t (fuel + 2) =
      Except.ok (processPage a0 d0 ++ processPage a1 d1, [none, some cur]) := by
  unfold fetch_full_inventory
  unfold fetchLoop
  rw [show t (List.length ([] : List (Option String))) = t 0 from rfl, h0]
  dsimp only
  rw [if_pos rfl, truthy_some_of_ne cur hcur]
  unfold fetchLoop
  rw [show t (List.length ([] ++ [(none : Option String)])) = t 1 from rfl, h1]
  dsimp only
  by_cases hm : m1 = some 1
  · rw [if_pos hm]
    have hl : truthy l1 = none := by
      rcases hterm with hm2 | hl | hl
      · exact absurd hm hm2
      · rw [hl]; rfl
      · rw [hl]; rfl
    rw [hl]
    simp
  · rw [if_neg hm]
    simp

theorem c8_two_page_termination_witness :
    c8t 0 = InvResp.page [⟨"c1", "i1"⟩]
        [⟨"c1", "i1", some "AK-47 | Redline", none, 1⟩] (some 1) (some "7001") ∧
    ("7001" : String) ≠ "" ∧
    c8t 1 = InvResp.page [⟨"c2", "i2"⟩]
        [⟨"c2", "i2", none, some "M4A4 | Howl", 0⟩] none none ∧
    ((none : Option Int) ≠ some 1 ∨ (none : Option String) = none ∨
        (none : Option String) = some "") ∧
    fetch_full_inventory c8t (0 + 2) =
      Except.ok
        (processPage [⟨"c1", "i1"⟩] [⟨"c1", "i1", some "AK-47 | Redline", none, 1⟩] ++
           processPage [⟨"c2", "i2"⟩] [⟨"c2", "i2", none, some "M4A4 | Howl", 0⟩],
         [none, some "7001"]) :=
  ⟨rfl, by decide, rfl, Or.inl (by decide),
   c8_two_page_termination c8t 0 _ _ "7001" _ _ none none rfl (by decide) rfl
     (Or.inl (by decide))⟩

/-- Claim C10, counterexample: the key is `("exact|" + name).strip()`, so a
*leading* space of the name survives inside the key.  After caching "AK",
looking up " AK" misses the cache, issues a second network request, and
returns that request's (different) quote — not the cached result. -/
theorem c10_leading_whitespace_new_request :
    pyStrip " AK" = pyStrip "AK" ∧
    (lowest_listing_exact (freshClient c10t 50) "AK").1 =
      Except.ok (some (100, "1", final_url "AK")) ∧
    (lowest_listing_exact (lowest_listing_exact (freshClient c10t 50) "AK").2 " AK").1 =
      Except.ok (some (200, "2", final_url " AK")) ∧
    (lowest_listing_exact (lowest_listing_exact (freshClient c10t 50) "AK").2 " AK").2.requests =
      ["AK", " AK"] :=
  ⟨by decide, rfl, rfl, rfl⟩

/-- Claim C10 (amended): stripping the concatenation `"exact|" + name`
erases only the name's *trailing* whitespace, so two names that differ only
by trailing whitespace share one cache key: after a first successful call
for `name`, the call for `name ++ w` (with `w` whitespace) is a cache hit
that returns the first call's result and issues no network request.  Names
differing by leading whitespace use distinct keys (see the
counterexample). -/
theorem c10_trailing_whitespace_cache_hit (c : CFClient) (name w : String)
    (d : Option (List Listing))
    (hw : ∀ ch ∈ w.data, pyIsSpace ch = true)
    (hmiss : c.cache.lookup (exactKey name) = none)
    (hok : c.transport c.requests.length = CFResp.ok d) :
    lowest_listing_exact (lowest_listing_exact c name).2 (name ++ w) =
      lowest_listing_exact c name := by
  rw [exact_miss_first_ok c name d hmiss hok]
  apply exact_cache_hit
  rw [exactKey_append_ws name w hw]
  simp [List.lookup]

theorem c10_trailing_whitespace_cache_hit_witness :
    (∀ ch ∈ (" " : String).data, pyIsSpace ch = true) ∧
    (freshClient c10wt 50).cache.lookup (exactKey "AK") = none ∧
    (freshClient c10wt 50).transport (freshClient c10wt 50).requests.length =
      CFResp.ok (some []) ∧
    lowest_listing_exact (lowest_listing_exact (freshClient c10wt 50) "AK").2 ("AK" ++ " ") =
      lowest_listing_exact (freshClient c10wt 50) "AK" :=
  ⟨by decide, rfl, rfl,
   c10_trailing_whitespace_cache_hit (freshClient c10wt 50) "AK" " " (some [])
     (by decide) rfl rfl⟩
